import Mathlib

/-!
Verification of the hybrid, interpretation-aware retrieval core and its
companion subsystems of the legal-RAG repository.

The Lean definitions below are shallow embeddings of the Python source:

* `src/src/retrieval/hybrid_retriever.py` — `RetrievalConfig`,
  `HybridRetriever._dense_search`, `_merge_results`, `_normalize_scores`,
  `_apply_interpretation_boost`, `_diversify_results`, `retrieve`.
* `src/src/database/models/interpretation_link.py` and
  `src/src/database/models.py` — the check constraints of the two
  `interpretation_links` table definitions.
* `src/src/ingestion/loaders/database_loader.py` — `PostgresLoader._load_single_document`
  and `_load_batch`, together with the unique constraints of the `documents`
  table (`id` primary key, `hash` unique) from
  `src/claude_project_handoff/src/database/models/document.py`.
* `src/src/ingestion/pipeline.py` — `StandardIngestionPipeline.__init__`,
  embedded as a sequence of Python assignments evaluated against an
  environment of bound names.

Python floats are modelled as rationals (`ℚ`); SQL `NULL`able columns as
`Option`; Python dicts keyed by ids as insertion-ordered association lists.
-/

namespace LegalRag

/-- A retrieval result dictionary, as produced by `_bm25_search`,
`_dense_search`, `_merge_results` and the boost stage of
`HybridRetriever` (a Python dict; optional keys become `Option`/default
fields). -/
structure RetrievedDoc where
  doc_id : String
  doc_type : String
  score : ℚ
  bm25_score : ℚ := 0
  dense_score : ℚ := 0
  combined_score : ℚ := 0
  interpretive_boost : Option ℚ := none
  interprets_statute : Option String := none
  interpretation_type : Option String := none
  is_interpretive_case : Bool := false
  source : String := ""
  deriving Repr, DecidableEq

/-- A row of the `interpretation_links` table.  `verified` is `Option Bool`
because the `models.py` column `verified = Column(Boolean, default=False)`
is nullable, so `NULL` is storable; `applicability_score`,
`confidence` and `extraction_confidence` are nullable `Float` columns. -/
structure LinkRow where
  statute_id : String
  case_id : String
  interpretation_type : String
  authority : String
  boost_factor : ℚ
  applicability_score : Option ℚ := none
  confidence : Option ℚ := none
  extraction_confidence : Option ℚ := none
  verified : Option Bool := none
  deriving Repr, DecidableEq

/-- A row of the `documents` table, restricted to the columns the retriever
reads (`hybrid_retriever.py` fetches `id`, `doc_type`, `full_text`, `title`,
`citation`). -/
structure DocRow where
  id : String
  doc_type : String
  title : String := ""
  full_text : String := ""
  citation : Option String := none
  deriving Repr, DecidableEq

/-- Configuration `RetrievalConfig` from `hybrid_retriever.py` with its dataclass
defaults (`0.4`, `0.4`, `0.2`, `3`, `True`, `True`). -/
structure RetrievalConfig where
  top_k : Nat := 10
  bm25_weight : ℚ := 2/5
  dense_weight : ℚ := 2/5
  lepard_weight : ℚ := 1/5
  max_interpretive_cases : Nat := 3
  interpretation_boost_enabled : Bool := true
  diversification_enabled : Bool := true
  deriving Repr, DecidableEq

/-- The default `RetrievalConfig()`. -/
def defaultConfig : RetrievalConfig := {}

/-- Embedding of `HybridRetriever._normalize_scores`: min-max scale the `score` field
into `[0,1]`; when all scores coincide every score becomes `1.0`; an
empty list is returned unchanged. -/
def normalizeScores (results : List RetrievedDoc) : List RetrievedDoc :=
  match results with
  | [] => []
  | r0 :: rest =>
    let scores := (r0 :: rest).map (·.score)
    let mn := scores.foldl min r0.score
    let mx := scores.foldl max r0.score
    if mx = mn then (r0 :: rest).map (fun r => { r with score := 1 })
    else (r0 :: rest).map (fun r => { r with score := (r.score - mn) / (mx - mn) })

/-- Set key `k` of an insertion-ordered dict to `v` (Python
`merged[doc_id] = result`): replace in place if present, else append. -/
def dictSet (m : List (String × RetrievedDoc)) (k : String) (v : RetrievedDoc) :
    List (String × RetrievedDoc) :=
  if m.any (fun p => p.1 = k) then
    m.map (fun p => if p.1 = k then (k, v) else p)
  else m ++ [(k, v)]

/-- Update the value at key `k` of an insertion-ordered dict in place. -/
def dictUpdate (m : List (String × RetrievedDoc)) (k : String)
    (f : RetrievedDoc → RetrievedDoc) : List (String × RetrievedDoc) :=
  m.map (fun p => if p.1 = k then (p.1, f p.2) else p)

/-- Embedding of `HybridRetriever._merge_results`: normalize both sides, merge by
`doc_id` with `combined_score = bm25_weight·bm25 + dense_weight·dense`
(no renormalization of the weights), copy the combined score into
`score`, sort descending, keep the top `k`. -/
def mergeResults (cfg : RetrievalConfig) (bm25Results denseResults : List RetrievedDoc)
    (k : Nat) : List RetrievedDoc :=
  let b := normalizeScores bm25Results
  let d := normalizeScores denseResults
  let m1 := b.foldl (fun m r =>
    dictSet m r.doc_id
      { r with bm25_score := r.score, dense_score := 0,
               combined_score := cfg.bm25_weight * r.score }) []
  let m2 := d.foldl (fun m r =>
    if m.any (fun p => p.1 = r.doc_id) then
      dictUpdate m r.doc_id (fun v =>
        { v with dense_score := r.score,
                 combined_score := v.combined_score + cfg.dense_weight * r.score })
    else
      dictSet m r.doc_id
        { r with bm25_score := 0, dense_score := r.score,
                 combined_score := cfg.dense_weight * r.score }) m1
  let vals := m2.map (fun p => { p.2 with score := p.2.combined_score })
  (vals.insertionSort (fun a b => a.score ≥ b.score)).take k

/-- Embedding of `HybridRetriever._dense_search`: the whole body runs inside
`try/except Exception: return []`, so the embedding-plus-FAISS outcome is
an `Except`; on success each `(index, distance)` row is dropped when the
index is `-1` or unmapped or the document is missing, and otherwise
yields similarity `1/(1+distance)`. -/
def denseSearch (outcome : Except String (List (Int × ℚ)))
    (mapping : List (Int × String)) (docStore : List DocRow) : List RetrievedDoc :=
  match outcome with
  | .error _ => []
  | .ok rows =>
    rows.filterMap (fun row =>
      if row.1 = -1 then none
      else
        match mapping.find? (fun p => p.1 = row.1) with
        | none => none
        | some p =>
          match docStore.find? (fun d => d.id = p.2) with
          | none => none
          | some doc =>
            some { doc_id := doc.id, doc_type := doc.doc_type,
                   score := 1 / (1 + row.2), source := "dense" })

/-- The anchor statutes of `_apply_interpretation_boost` step 1: `doc_id`s
of `doc_type = "statute"` entries among the top-20 results. -/
def anchorStatuteIds (results : List RetrievedDoc) : List String :=
  ((results.take 20).filter (fun r => r.doc_type = "statute")).map (·.doc_id)

/-- The `WHERE` clause of the raw SQL in `_apply_interpretation_boost`
step 2: `statute_id = ANY(:statute_ids) AND (verified = true OR verified
IS NULL)`. -/
def hybridLinkFilter (statuteIds : List String) (l : LinkRow) : Bool :=
  statuteIds.contains l.statute_id &&
    (l.verified = some true || l.verified = none)

/-- The SQL ordering `ORDER BY boost_factor DESC, applicability_score DESC` (Postgres puts
`NULL`s first under `DESC`). -/
def linkOrder (a b : LinkRow) : Prop :=
  if a.boost_factor ≠ b.boost_factor then a.boost_factor > b.boost_factor
  else
    match a.applicability_score, b.applicability_score with
    | none, _ => True
    | some _, none => False
    | some x, some y => x ≥ y

instance : DecidableRel linkOrder := fun a b => by
  unfold linkOrder
  split
  · exact inferInstance
  · rcases a.applicability_score with _ | x <;> rcases b.applicability_score with _ | y
    all_goals simp only []
    all_goals exact inferInstance

/-- The link-store query of `_apply_interpretation_boost` step 2. -/
def linksForStatutesHybrid (linkStore : List LinkRow) (statuteIds : List String) :
    List LinkRow :=
  (linkStore.filter (hybridLinkFilter statuteIds)).insertionSort linkOrder

/-- The per-case metadata kept in `case_boost_map`. -/
structure BoostInfo where
  boost_factor : ℚ
  statute_id : String
  interpretation_type : String
  authority : String
  deriving Repr, DecidableEq

/-- The `BoostInfo` recorded for a link in `case_boost_map`. -/
def mkBoostInfo (l : LinkRow) : BoostInfo :=
  { boost_factor := l.boost_factor, statute_id := l.statute_id,
    interpretation_type := l.interpretation_type, authority := l.authority }

/-- One step of building `case_boost_map`: keep the dict unchanged when
the `case_id` is already a key, else append the link's entry. -/
def caseBoostStep (m : List (String × BoostInfo)) (l : LinkRow) :
    List (String × BoostInfo) :=
  if m.any (fun p => p.1 = l.case_id) then m
  else m ++ [(l.case_id, mkBoostInfo l)]

/-- Step 3 of `_apply_interpretation_boost`: walk the ordered links and keep
the first entry per `case_id` (insertion-ordered dict). -/
def buildCaseBoostMap (links : List LinkRow) : List (String × BoostInfo) :=
  links.foldl caseBoostStep []

/-- Association-list lookup (Python `result['doc_id'] in case_boost_map` /
`case_boost_map[doc_id]`). -/
def mapLookup (m : List (String × BoostInfo)) (k : String) : Option BoostInfo :=
  (m.find? (fun p => p.1 = k)).map (·.2)

/-- Step 4 of `_apply_interpretation_boost`: multiply the score of every
result whose `doc_id` is a key of the map by its `boost_factor` and
annotate it. -/
def boostExisting (caseBoostMap : List (String × BoostInfo))
    (results : List RetrievedDoc) : List RetrievedDoc :=
  results.map (fun r =>
    match mapLookup caseBoostMap r.doc_id with
    | some info =>
      { r with score := r.score * info.boost_factor,
               interpretive_boost := some info.boost_factor,
               interprets_statute := some info.statute_id }
    | none => r)

/-- The mean of the scores of the first ten entries of a result list:
`sum(r['score'] for r in results[:10]) / min(10, len(results))`, with a
`0.5` fallback on an empty list.  `_apply_interpretation_boost` step 5
computes this as `avg_score` over the *already boosted* result list. -/
def avgTopTen (results : List RetrievedDoc) : ℚ :=
  if results.isEmpty then 1/2
  else (((results.take 10).map (·.score)).sum) / (min 10 results.length : ℕ)

/-- Step 5 of `_apply_interpretation_boost`: for every map entry whose case
is not among the `doc_type = "case"` results, fetch the case document
and append it with score `0.7 · avg_score · boost_factor`. -/
def injectMissingCases (caseBoostMap : List (String × BoostInfo))
    (docStore : List DocRow) (boosted : List RetrievedDoc) : List RetrievedDoc :=
  let existingCaseIds := (boosted.filter (fun r => r.doc_type = "case")).map (·.doc_id)
  let syntheticScore := (7/10 : ℚ) * avgTopTen boosted
  caseBoostMap.filterMap (fun p =>
    if existingCaseIds.contains p.1 then none
    else
      match docStore.find? (fun d => d.id = p.1) with
      | none => none
      | some doc =>
        some { doc_id := doc.id, doc_type := "case",
               score := syntheticScore * p.2.boost_factor,
               source := "interpretation_link",
               is_interpretive_case := true,
               interprets_statute := some p.2.statute_id,
               interpretation_type := some p.2.interpretation_type })

/-- Embedding of `HybridRetriever._apply_interpretation_boost`.  The second component
records whether the interpretation-link query was issued (the code
returns before the SQL `execute` when no statute is in the top 20). -/
def applyInterpretationBoost (linkStore : List LinkRow) (docStore : List DocRow)
    (results : List RetrievedDoc) : List RetrievedDoc × Bool :=
  let statuteIds := anchorStatuteIds results
  if statuteIds.isEmpty then (results, false)
  else
    let links := linksForStatutesHybrid linkStore statuteIds
    if links.isEmpty then (results, true)
    else
      let caseBoostMap := buildCaseBoostMap links
      let boosted := boostExisting caseBoostMap results
      (boosted ++ injectMissingCases caseBoostMap docStore boosted, true)

/-- The loop body of `HybridRetriever._diversify_results`: walk the
sorted results, skipping any result annotated `interprets_statute = s`
once `cap` such results are retained, and stop as soon as `k` results
are retained. -/
def diversifyGo (cap k : Nat) :
    List RetrievedDoc → (String → Nat) → List RetrievedDoc → List RetrievedDoc
  | [], _, acc => acc.reverse
  | r :: rest, counts, acc =>
    match r.interprets_statute with
    | some s =>
      if counts s ≥ cap then diversifyGo cap k rest counts acc
      else if acc.length + 1 ≥ k then (r :: acc).reverse
      else diversifyGo cap k rest
        (fun t => if t = s then counts s + 1 else counts t) (r :: acc)
    | none =>
      if acc.length + 1 ≥ k then (r :: acc).reverse
      else diversifyGo cap k rest counts (r :: acc)

/-- Embedding of `HybridRetriever._diversify_results`. -/
def diversifyResults (cfg : RetrievalConfig) (results : List RetrievedDoc)
    (k : Nat) : List RetrievedDoc :=
  diversifyGo cfg.max_interpretive_cases k
    (results.insertionSort (fun a b => a.score ≥ b.score)) (fun _ => 0) []

/-- Embedding of `HybridRetriever.retrieve`: BM25 hits are a parameter (the
Elasticsearch call), the dense side is `denseSearch` of the
embedding/FAISS outcome; merge to 500, boost when enabled, then
diversify (or plain sort-and-truncate).  The second component reports
whether the link store was queried. -/
def retrieve (cfg : RetrievalConfig) (bm25Results : List RetrievedDoc)
    (denseOutcome : Except String (List (Int × ℚ))) (mapping : List (Int × String))
    (linkStore : List LinkRow) (docStore : List DocRow)
    (kOpt : Option Nat) (useInterpretationLinks : Bool) :
    List RetrievedDoc × Bool :=
  let k := kOpt.getD cfg.top_k
  let denseResults := denseSearch denseOutcome mapping docStore
  let merged := mergeResults cfg bm25Results denseResults 500
  let bq :=
    if useInterpretationLinks && cfg.interpretation_boost_enabled then
      applyInterpretationBoost linkStore docStore merged
    else (merged, false)
  let final :=
    if cfg.diversification_enabled then diversifyResults cfg bq.1 k
    else (bq.1.insertionSort (fun a b => a.score ≥ b.score)).take k
  (final, bq.2)

/-! ### Check constraints of the two `interpretation_links` table definitions -/

/-- The `CheckConstraint`s of `InterpretationLink.__table_args__` in
`src/src/database/models/interpretation_link.py`:
`boost_factor >= 1.0 AND boost_factor <= 5.0`;
`applicability_score IS NULL OR (applicability_score >= 0 AND applicability_score <= 1)`;
`extraction_confidence IS NULL OR (extraction_confidence >= 0 AND extraction_confidence <= 1)`. -/
def interpretationLinkModelCheckOk (l : LinkRow) : Bool :=
  (1 ≤ l.boost_factor && l.boost_factor ≤ 5) &&
  (match l.applicability_score with
   | none => true
   | some a => 0 ≤ a && a ≤ 1) &&
  (match l.extraction_confidence with
   | none => true
   | some c => 0 ≤ c && c ≤ 1)

/-- The `CheckConstraint`s of `InterpretationLink.__table_args__` in
`src/src/database/models.py`: enumerated `interpretation_type` and
`authority`; `boost_factor >= 1.0 AND boost_factor <= 3.0`;
`confidence >= 0.0 AND confidence <= 1.0` (an SQL check passes on
`NULL`). -/
def modelsPyCheckOk (l : LinkRow) : Bool :=
  (["NARROW", "BROAD", "CLARIFY", "PURPOSIVE", "LITERAL", "APPLY"].contains
     l.interpretation_type) &&
  (["BINDING", "PERSUASIVE", "OBITER", "DISSENT"].contains l.authority) &&
  (1 ≤ l.boost_factor && l.boost_factor ≤ 3) &&
  (match l.confidence with
   | none => true
   | some c => 0 ≤ c && c ≤ 1)

/-! ### `StandardIngestionPipeline.__init__` (`src/src/ingestion/pipeline.py`)

The constructor body is embedded as a sequence of Python assignments to
`self` attributes; each right-hand side is a small expression evaluated
against the environment of names bound in the constructor's scope (its
parameters).  Evaluating an unbound name is Python's `NameError`. -/

/-- A Python value, as far as the constructor's expressions need:
`None`, or some object tagged with its class name. -/
inductive PyVal where
  | pyNone : PyVal
  | obj : String → PyVal
  deriving Repr, DecidableEq

/-- Python truthiness of a `PyVal` (`None` is falsy, instances are truthy). -/
def pyTruthy : PyVal → Bool
  | .pyNone => false
  | .obj _ => true

/-- The expression forms occurring in the constructor body: a name
lookup, `a or b`, and a zero-argument constructor call. -/
inductive PyExpr where
  | name : String → PyExpr
  | orElse : PyExpr → PyExpr → PyExpr
  | call : String → PyExpr
  deriving Repr, DecidableEq

/-- Evaluate a `PyExpr` against an environment; a name miss is a
`NameError` carrying the name (Python evaluates the left operand of
`or` first and short-circuits on a truthy value). -/
def evalPyExpr (env : List (String × PyVal)) : PyExpr → Except String PyVal
  | .name s =>
    match env.find? (fun p => p.1 = s) with
    | some p => .ok p.2
    | none => .error s
  | .orElse a b => do
    let va ← evalPyExpr env a
    if pyTruthy va then pure va else evalPyExpr env b
  | .call c => .ok (.obj c)

/-- Run a sequence of attribute assignments: each right-hand side is
evaluated in order; the target is a `self` attribute, so the local
environment never grows. -/
def runAssignments (env : List (String × PyVal)) :
    List (String × PyExpr) → Except String Unit
  | [] => .ok ()
  | stmt :: rest => do
    let _ ← evalPyExpr env stmt.2
    runAssignments env rest

/-- The assignment sequence of `StandardIngestionPipeline.__init__`,
transcribed from `src/src/ingestion/pipeline.py` lines 52-57. -/
def standardIngestionPipelineInitBody : List (String × PyExpr) :=
  [("source_adapter", .name "source_adapter"),
   ("statute_parser", .orElse (.name "statute_parser") (.call "StatuteParser")),
   ("case_parser", .name "case_parser"),
   ("rules_parser", .orElse (.name "rules_parser") (.call "CaseParser")),
   ("loader", .name "loader"),
   ("batch_size", .name "batch_size")]

/-- The constructor's local environment: exactly its parameters. -/
def standardIngestionPipelineEnv (sourceAdapter statuteParserArg caseParserArg
    loaderArg batchSize : PyVal) : List (String × PyVal) :=
  [("source_adapter", sourceAdapter),
   ("statute_parser", statuteParserArg),
   ("case_parser", caseParserArg),
   ("loader", loaderArg),
   ("batch_size", batchSize)]

/-- Running `StandardIngestionPipeline.__init__` with the given argument
values. -/
def standardIngestionPipelineInit (sourceAdapter statuteParserArg caseParserArg
    loaderArg batchSize : PyVal) : Except String Unit :=
  runAssignments
    (standardIngestionPipelineEnv sourceAdapter statuteParserArg caseParserArg
      loaderArg batchSize)
    standardIngestionPipelineInitBody

/-! ### `PostgresLoader` (`src/src/ingestion/loaders/database_loader.py`)

In `_load_single_document` the explicit `skip_existing`, hash-dedup and
parent checks are all commented out; the method builds the row,
`session.add` + `session.flush`es it, and on `IntegrityError` rolls the
transaction back and records a skip.  The `documents` table
(`document.py`) has `id` as primary key and `hash = Column(String(64),
unique=True, nullable=True)`, so a flush conflicts exactly when the `id`
already exists or the (non-null) `hash` already exists among committed
or pending rows. -/

/-- A parsed document as the loader sees it (identity and content hash
are all the dedup behaviour depends on). -/
structure ParsedDoc where
  id : String
  hash : Option String := none
  level : Nat := 0
  deriving Repr, DecidableEq

/-- The database state seen by one batch: committed rows plus the rows
flushed in the open transaction. -/
structure LoaderState where
  committed : List ParsedDoc := []
  pending : List ParsedDoc := []
  inserted : List String := []
  skipped : List String := []
  errors : List String := []
  deriving Repr, DecidableEq

/-- Whether inserting `doc` violates a unique constraint of the
`documents` table against the given visible rows. -/
def insertConflicts (rows : List ParsedDoc) (doc : ParsedDoc) : Bool :=
  rows.any (fun d => d.id = doc.id) ||
  (match doc.hash with
   | none => false
   | some h => rows.any (fun d => d.hash = some h))

/-- Embedding of `PostgresLoader._load_single_document`: add + flush; on
`IntegrityError` roll back (discarding the transaction's pending rows)
and record a skip. -/
def loadSingleDocument (st : LoaderState) (doc : ParsedDoc) : LoaderState :=
  if insertConflicts (st.committed ++ st.pending) doc then
    { st with pending := [], skipped := st.skipped ++ [doc.id] }
  else
    { st with pending := st.pending ++ [doc], inserted := st.inserted ++ [doc.id] }

/-- Embedding of `PostgresLoader._load_batch`: sort by `level`, load each document,
then commit the batch. -/
def loadBatch (st : LoaderState) (batch : List ParsedDoc) : LoaderState :=
  let sorted := batch.insertionSort (fun a b => a.level ≤ b.level)
  let st' := sorted.foldl loadSingleDocument st
  { st' with committed := st'.committed ++ st'.pending, pending := [] }

/-! ### Synthesis quality scorer -/

/-- Modelled from the spec: the implementation
`validation/synthesis_quality_scorer.py` imported by
`src/examples/synthesis_scoring_examples.py` is not present under the
source tree; per the spec, `overall = 0.25·statute + 0.25·interpretation
+ 0.30·synthesis + 0.20·practical_effect`. -/
def overallScore (statute interpretation synthesis practicalEffect : ℚ) : ℚ :=
  (25/100) * statute + (25/100) * interpretation +
  (30/100) * synthesis + (20/100) * practicalEffect

/-- Modelled from the spec: `passed = overall ≥ 0.70`. -/
def synthesisPassed (statute interpretation synthesis practicalEffect : ℚ) : Bool :=
  overallScore statute interpretation synthesis practicalEffect ≥ 70/100

/-! ### Concrete fixtures -/

/-- The merged (pre-boost) results of the C4 scenario: statute `S`
fused at `1`, case `C1` fused at `4/5`. -/
def c4Results : List RetrievedDoc :=
  [{ doc_id := "S", doc_type := "statute", score := 1 },
   { doc_id := "C1", doc_type := "case", score := 4/5 }]

/-- The link store of the C4 scenario: `S` is interpreted by the
retrieved case `C1` and by the non-retrieved case `C2`, both with boost
`2`. -/
def c4Links : List LinkRow :=
  [{ statute_id := "S", case_id := "C1", interpretation_type := "NARROW",
     authority := "BINDING", boost_factor := 2, verified := some true },
   { statute_id := "S", case_id := "C2", interpretation_type := "BROAD",
     authority := "BINDING", boost_factor := 2, verified := some true }]

/-- The document store of the C4 scenario holds the non-retrieved case
`C2`. -/
def c4Docs : List DocRow := [{ id := "C2", doc_type := "case" }]

/-- The loader state before any batch. -/
def initialLoaderState : LoaderState := {}

/-- Two parsed documents with distinct ids that share no content hash —
what a well-formed parse of one source produces. -/
def distinctIdHash (a b : ParsedDoc) : Prop :=
  a.id ≠ b.id ∧ ∀ h : String, ¬(a.hash = some h ∧ b.hash = some h)

/-! ## Theorems -/

/-- C9: For every argument combination, constructing
`StandardIngestionPipeline` fails: its `__init__` reads the name
`rules_parser`, which is neither a parameter nor a local binding, so
initialization always raises an unbound-name error (`NameError`) before
`run()` can ever be invoked. -/
theorem standardIngestionPipelineInit_always_raises
    (sourceAdapter statuteParserArg caseParserArg loaderArg batchSize : PyVal) :
    standardIngestionPipelineInit sourceAdapter statuteParserArg caseParserArg
      loaderArg batchSize = .error "rules_parser" := by
  cases hv : pyTruthy statuteParserArg <;>
    simp [standardIngestionPipelineInit, standardIngestionPipelineInitBody,
      standardIngestionPipelineEnv, runAssignments, evalPyExpr, List.find?, hv,
      Except.bind, bind, pure, Except.pure]

/-- C10: When both sub-searches return no hits, `retrieve` returns the
empty list and the interpretation-link query is never issued: the boost
stage returns its input before touching the link store because the
anchor-statute set is empty. -/
theorem retrieve_empty_subsearches (cfg : RetrievalConfig)
    (mapping : List (Int × String)) (linkStore : List LinkRow)
    (docStore : List DocRow) (kOpt : Option Nat) :
    retrieve cfg [] (.ok []) mapping linkStore docStore kOpt true = ([], false) := by
  cases hb : cfg.interpretation_boost_enabled <;>
    cases hd : cfg.diversification_enabled <;>
      simp [retrieve, denseSearch, mergeResults, normalizeScores,
        applyInterpretationBoost, anchorStatuteIds, diversifyResults, diversifyGo,
        List.insertionSort, hb, hd]

/-- C7 counterexample: with the synthesis section missing (score `0`)
and the other three sections at full credit, the overall score is
exactly `0.70`, which meets the `overall ≥ 0.70` passing threshold — so
"`overall ≥ 0.70` is unreachable when synthesis is missing" is false. -/
theorem missingSynthesis_can_reach_passing_threshold :
    overallScore 1 1 0 1 = 70/100 ∧ synthesisPassed 1 1 0 1 = true := by
  constructor
  · norm_num [overallScore]
  · simp [synthesisPassed, overallScore]
    norm_num

/-- C7 (amended): with the synthesis section missing (score `0`) and the
other three section scores in `[0,1]`, the overall score is at most
`0.70`, and the `overall ≥ 0.70` threshold is met exactly when statute,
interpretation and practical-effect all score a perfect `1`; in
particular `overall > 0.70` is unreachable. -/
theorem overallScore_missing_synthesis (a b c : ℚ)
    (ha0 : 0 ≤ a) (ha1 : a ≤ 1) (hb0 : 0 ≤ b) (hb1 : b ≤ 1)
    (hc0 : 0 ≤ c) (hc1 : c ≤ 1) :
    overallScore a b 0 c ≤ 70/100 ∧
      (synthesisPassed a b 0 c = true ↔ a = 1 ∧ b = 1 ∧ c = 1) := by
  constructor
  · unfold overallScore
    linarith
  · simp only [synthesisPassed, overallScore, decide_eq_true_eq, ge_iff_le]
    constructor
    · intro h
      refine ⟨by linarith, by linarith, by linarith⟩
    · rintro ⟨rfl, rfl, rfl⟩
      norm_num

/-- Witness for `overallScore_missing_synthesis` at
`(a, b, c) = (1/2, 1, 1)`. -/
theorem overallScore_missing_synthesis_witness :
    overallScore (1/2) 1 0 1 ≤ 70/100 ∧
      (synthesisPassed (1/2) 1 0 1 = true ↔ (1/2 : ℚ) = 1 ∧ (1 : ℚ) = 1 ∧ (1 : ℚ) = 1) :=
  overallScore_missing_synthesis (1/2) 1 1 (by norm_num) (by norm_num)
    (by norm_num) (by norm_num) (by norm_num) (by norm_num)

/-- C1 counterexample: the claim "every record admitted to the
interpretation-link store has `1.0 ≤ boost_factor ≤ 3.0` and
`applicability_score ∈ [0,1]` when present" is false: a row with
`boost_factor = 4` passes the `models/interpretation_link.py` check
constraints (which allow up to `5.0`), and a row with
`applicability_score = 2` passes the `models.py` check constraints
(which do not constrain `applicability_score` at all). -/
theorem interpretationLink_bounds_counterexample :
    ¬ (∀ l : LinkRow,
        interpretationLinkModelCheckOk l = true ∨ modelsPyCheckOk l = true →
        (1 ≤ l.boost_factor ∧ l.boost_factor ≤ 3) ∧
          ∀ a ∈ l.applicability_score, 0 ≤ a ∧ a ≤ 1) := by
  intro h
  have h4 := h { statute_id := "s", case_id := "c",
                 interpretation_type := "CLARIFY", authority := "BINDING",
                 boost_factor := 4, applicability_score := some (1/2) }
    (Or.inl (by norm_num [interpretationLinkModelCheckOk]))
  have : (4 : ℚ) ≤ 3 := h4.1.2
  norm_num at this

/-- C1 (amended): a record admitted by the
`models/interpretation_link.py` check constraints satisfies
`1.0 ≤ boost_factor ≤ 5.0` and `applicability_score ∈ [0,1]` when
present, while a record admitted by the `models.py` check constraints
satisfies `1.0 ≤ boost_factor ≤ 3.0` (with `applicability_score`
unconstrained there). -/
theorem interpretationLink_checkConstraint_bounds (l : LinkRow) :
    (interpretationLinkModelCheckOk l = true →
       (1 ≤ l.boost_factor ∧ l.boost_factor ≤ 5) ∧
         ∀ a ∈ l.applicability_score, 0 ≤ a ∧ a ≤ 1) ∧
    (modelsPyCheckOk l = true → 1 ≤ l.boost_factor ∧ l.boost_factor ≤ 3) := by
  constructor
  · intro h
    simp only [interpretationLinkModelCheckOk, Bool.and_eq_true,
      decide_eq_true_eq] at h
    refine ⟨h.1.1, ?_⟩
    intro a ha
    rcases hA : l.applicability_score with _ | x
    · simp [hA] at ha
    · rw [hA] at h ha
      simp only [Bool.and_eq_true, decide_eq_true_eq] at h
      cases ha
      exact h.1.2
  · intro h
    simp only [modelsPyCheckOk, Bool.and_eq_true, decide_eq_true_eq] at h
    exact h.1.2

/-- Witness for `interpretationLink_checkConstraint_bounds` at a row
admitted by both table definitions. -/
theorem interpretationLink_checkConstraint_bounds_witness :
    ((1 ≤ (2 : ℚ) ∧ (2 : ℚ) ≤ 5) ∧
       ∀ a ∈ (some (4/5) : Option ℚ), 0 ≤ a ∧ a ≤ 1) ∧
    (1 ≤ (2 : ℚ) ∧ (2 : ℚ) ≤ 3) :=
  ⟨(interpretationLink_checkConstraint_bounds
      { statute_id := "s", case_id := "c", interpretation_type := "APPLY",
        authority := "PERSUASIVE", boost_factor := 2,
        applicability_score := some (4/5) }).1
     (by norm_num [interpretationLinkModelCheckOk]),
   (interpretationLink_checkConstraint_bounds
      { statute_id := "s", case_id := "c", interpretation_type := "APPLY",
        authority := "PERSUASIVE", boost_factor := 2,
        applicability_score := some (4/5) }).2
     (by norm_num [modelsPyCheckOk])⟩

/-- C5 counterexample: a unit returned by both sides, each side a
singleton so that both normalized scores are `1.0`, receives fused score
`0.4·1 + 0.4·1 = 0.8`, not `1.0`: the two active weights are not
renormalized when the third (lepard) signal is absent. -/
theorem merge_no_renormalization_counterexample :
    (normalizeScores [{ doc_id := "A", doc_type := "statute", score := 5 }]).map (·.score)
        = [1] ∧
    (normalizeScores [{ doc_id := "A", doc_type := "statute", score := 3 }]).map (·.score)
        = [1] ∧
    (mergeResults defaultConfig
        [{ doc_id := "A", doc_type := "statute", score := 5 }]
        [{ doc_id := "A", doc_type := "statute", score := 3 }] 500).map
      (fun r => (r.doc_id, r.score)) = [("A", 4/5)] ∧
    (4/5 : ℚ) ≠ 1 := by
  refine ⟨by simp [normalizeScores], by simp [normalizeScores], ?_, by norm_num⟩
  simp [mergeResults, normalizeScores, dictSet, dictUpdate, defaultConfig,
    List.insertionSort, List.orderedInsert]
  norm_num

/-- C5 (amended): the fusion weights are not renormalized when the third
(lepard) signal is absent: a unit appearing on both sides with both
normalized scores equal to `1.0` (as with singleton sides) receives
fused score `bm25_weight + dense_weight` — `0.8` under the defaults, not
`1.0`. -/
theorem mergeResults_both_one_fused_sum (cfg : RetrievalConfig)
    (a b : RetrievedDoc) (k : Nat) (h : b.doc_id = a.doc_id) :
    (mergeResults cfg [a] [b] (k + 1)).map (fun r => (r.doc_id, r.score)) =
      [(a.doc_id, cfg.bm25_weight + cfg.dense_weight)] := by
  simp [mergeResults, normalizeScores, dictSet, dictUpdate, h,
    List.insertionSort, List.orderedInsert]

/-- Witness for `mergeResults_both_one_fused_sum` under the default
configuration: the fused score is `0.8`. -/
theorem mergeResults_both_one_fused_sum_witness :
    (mergeResults defaultConfig
        [{ doc_id := "A", doc_type := "statute", score := 5 }]
        [{ doc_id := "A", doc_type := "case", score := 3 }] 500).map
      (fun r => (r.doc_id, r.score)) = [("A", defaultConfig.bm25_weight + defaultConfig.dense_weight)] :=
  mergeResults_both_one_fused_sum defaultConfig
    { doc_id := "A", doc_type := "statute", score := 5 }
    { doc_id := "A", doc_type := "case", score := 3 } 499 rfl

/-- Membership in `dictSet`: an entry is an old one or the newly set
pair. -/
lemma mem_dictSet {m : List (String × RetrievedDoc)} {k : String}
    {v : RetrievedDoc} {p : String × RetrievedDoc}
    (hp : p ∈ dictSet m k v) : p ∈ m ∨ p = (k, v) := by
  unfold dictSet at hp
  split at hp
  · rcases List.mem_map.1 hp with ⟨q, hq, hfq⟩
    by_cases hqk : q.1 = k
    · rw [if_pos hqk] at hfq
      exact Or.inr hfq.symm
    · rw [if_neg hqk] at hfq
      exact Or.inl (hfq ▸ hq)
  · rcases List.mem_append.1 hp with h | h
    · exact Or.inl h
    · exact Or.inr (List.mem_singleton.1 h)

/-- Membership in a fold of `dictSet`s over a result list. -/
lemma mem_foldl_dictSet (key : RetrievedDoc → String) (g : RetrievedDoc → RetrievedDoc) :
    ∀ (l : List RetrievedDoc) (init : List (String × RetrievedDoc))
      (p : String × RetrievedDoc),
      p ∈ l.foldl (fun m r => dictSet m (key r) (g r)) init →
      p ∈ init ∨ ∃ h ∈ l, p = (key h, g h)
  | [], _, _, hp => Or.inl hp
  | r :: rest, init, p, hp => by
    rcases mem_foldl_dictSet key g rest _ p hp with h1 | ⟨h, hh, rfl⟩
    · rcases mem_dictSet h1 with h2 | h2
      · exact Or.inl h2
      · exact Or.inr ⟨r, List.mem_cons_self r rest, h2⟩
    · exact Or.inr ⟨h, List.mem_cons_of_mem _ hh, rfl⟩

/-- C8: If the embedding call raises during a query, dense search
returns the empty list (the retriever catches the exception instead of
surfacing it), and every merged result's fused score equals the lexical
weight times its normalized lexical score — a lexical-only ranking. -/
theorem denseFailure_lexical_only (cfg : RetrievalConfig)
    (bm25Results : List RetrievedDoc) (e : String)
    (mapping : List (Int × String)) (docStore : List DocRow) (k : Nat) :
    denseSearch (.error e) mapping docStore = [] ∧
    ∀ r ∈ mergeResults cfg bm25Results (denseSearch (.error e) mapping docStore) k,
      ∃ h ∈ normalizeScores bm25Results,
        r.doc_id = h.doc_id ∧ r.score = cfg.bm25_weight * h.score := by
  refine ⟨rfl, ?_⟩
  intro r hr
  have he : denseSearch (Except.error e) mapping docStore = [] := rfl
  rw [he] at hr
  unfold mergeResults at hr
  simp only [show normalizeScores ([] : List RetrievedDoc) = [] from rfl,
    List.foldl_nil] at hr
  have hr1 : r ∈ (((normalizeScores bm25Results).foldl
      (fun m r => dictSet m r.doc_id
        { r with bm25_score := r.score, dense_score := 0,
                 combined_score := cfg.bm25_weight * r.score }) []).map
      (fun p => { p.2 with score := p.2.combined_score })) :=
    (List.perm_insertionSort _ _).subset (List.take_subset _ _ hr)
  rcases List.mem_map.1 hr1 with ⟨p, hp, rfl⟩
  rcases mem_foldl_dictSet _ _ _ _ _ hp with h0 | ⟨h, hh, rfl⟩
  · cases h0
  · exact ⟨h, hh, rfl, rfl⟩

/-- Witness for `denseFailure_lexical_only` on a one-hit lexical side. -/
theorem denseFailure_lexical_only_witness :
    ∃ h ∈ normalizeScores [{ doc_id := "A", doc_type := "statute", score := 5 }],
      ({ doc_id := "A", doc_type := "statute", score := 2/5, bm25_score := 1,
         dense_score := 0, combined_score := 2/5 } : RetrievedDoc).doc_id = h.doc_id ∧
      ({ doc_id := "A", doc_type := "statute", score := 2/5, bm25_score := 1,
         dense_score := 0, combined_score := 2/5 } : RetrievedDoc).score =
        defaultConfig.bm25_weight * h.score :=
  (denseFailure_lexical_only defaultConfig
      [{ doc_id := "A", doc_type := "statute", score := 5 }] "embedding failed"
      [] [] 5).2
    { doc_id := "A", doc_type := "statute", score := 2/5, bm25_score := 1,
      dense_score := 0, combined_score := 2/5 }
    (by simp [mergeResults, normalizeScores, dictSet, denseSearch, defaultConfig,
          List.insertionSort, List.orderedInsert])

/-- The running invariant of `_diversify_results`: if `counts s` matches
the number of already-retained results annotated with statute `s` and is
at most the cap, the final list retains at most `cap` results annotated
with `s`. -/
lemma diversifyGo_filter_le (cap k : Nat) (s : String) :
    ∀ (l : List RetrievedDoc) (counts : String → Nat) (acc : List RetrievedDoc),
      (acc.filter (fun r => r.interprets_statute = some s)).length = counts s →
      counts s ≤ cap →
      ((diversifyGo cap k l counts acc).filter
          (fun r => r.interprets_statute = some s)).length ≤ cap
  | [], counts, acc, hacc, hle => by
    simpa [diversifyGo, List.filter_reverse, hacc] using hle
  | r :: rest, counts, acc, hacc, hle => by
    unfold diversifyGo
    split
    · rename_i s' hi
      by_cases hcap : counts s' ≥ cap
      · rw [if_pos hcap]
        exact diversifyGo_filter_le cap k s rest counts acc hacc hle
      · rw [if_neg hcap]
        by_cases hk : acc.length + 1 ≥ k
        · rw [if_pos hk]
          by_cases hss : s' = s
          · subst hss
            have hlen : (((r :: acc).filter
                (fun r => r.interprets_statute = some s')).length) = counts s' + 1 := by
              simp [List.filter_cons, hi, hacc]
            simp only [List.filter_reverse, List.length_reverse, hlen]
            omega
          · have hlen : (((r :: acc).filter
                (fun r => r.interprets_statute = some s)).length) = counts s := by
              simp [List.filter_cons, hi, hacc, hss]
            simp only [List.filter_reverse, List.length_reverse, hlen]
            exact hle
        · rw [if_neg hk]
          by_cases hss : s' = s
          · subst hss
            exact diversifyGo_filter_le cap k s' rest _ (r :: acc)
              (by simp [List.filter_cons, hi, hacc]) (by simp; omega)
          · exact diversifyGo_filter_le cap k s rest _ (r :: acc)
              (by simp [List.filter_cons, hi, hacc, hss, Ne.symm hss])
              (by simpa [Ne.symm hss] using hle)
    · rename_i hi
      by_cases hk : acc.length + 1 ≥ k
      · rw [if_pos hk]
        simpa [List.filter_reverse, List.filter_cons, hi, hacc] using hle
      · rw [if_neg hk]
        exact diversifyGo_filter_le cap k s rest counts (r :: acc)
          (by simp [List.filter_cons, hi, hacc]) hle

/-- The cap holds for `_diversify_results` on any input. -/
lemma diversifyResults_filter_le (cfg : RetrievalConfig)
    (results : List RetrievedDoc) (k : Nat) (s : String) :
    ((diversifyResults cfg results k).filter
        (fun r => r.interprets_statute = some s)).length ≤
      cfg.max_interpretive_cases :=
  diversifyGo_filter_le _ _ _ _ _ _ (by simp) (Nat.zero_le _)

/-- C3: with diversification enabled (the default), the ranked list
returned by `retrieve` contains at most `max_interpretive_cases`
(default `3`) results annotated as interpreting any given statute `s`. -/
theorem retrieve_diversification_cap (cfg : RetrievalConfig)
    (hdiv : cfg.diversification_enabled = true)
    (bm25Results : List RetrievedDoc)
    (denseOutcome : Except String (List (Int × ℚ)))
    (mapping : List (Int × String)) (linkStore : List LinkRow)
    (docStore : List DocRow) (kOpt : Option Nat) (useLinks : Bool) (s : String) :
    (((retrieve cfg bm25Results denseOutcome mapping linkStore docStore
          kOpt useLinks).1).filter
        (fun r => r.interprets_statute = some s)).length ≤
      cfg.max_interpretive_cases := by
  unfold retrieve
  simp only [hdiv, if_true]
  exact diversifyResults_filter_le cfg _ _ s

/-- Witness for `retrieve_diversification_cap` under the default
configuration. -/
theorem retrieve_diversification_cap_witness :
    (((retrieve defaultConfig [] (.ok []) [] [] [] none true).1).filter
        (fun r => r.interprets_statute = some "S")).length ≤
      defaultConfig.max_interpretive_cases :=
  retrieve_diversification_cap defaultConfig rfl [] (.ok []) [] [] [] none true "S"

/-- Membership in the case-boost map comes from one of the folded links. -/
lemma mem_buildCaseBoostMap_aux :
    ∀ (links : List LinkRow) (init : List (String × BoostInfo))
      (p : String × BoostInfo),
      p ∈ links.foldl caseBoostStep init →
      p ∈ init ∨ ∃ l ∈ links, p = (l.case_id, mkBoostInfo l)
  | [], _, _, hp => Or.inl hp
  | l :: rest, init, p, hp => by
    rcases mem_buildCaseBoostMap_aux rest _ p hp with h1 | ⟨l', hl', rfl⟩
    · unfold caseBoostStep at h1
      by_cases hc : init.any (fun q => q.1 = l.case_id) = true
      · rw [if_pos hc] at h1
        exact Or.inl h1
      · rw [if_neg hc] at h1
        rcases List.mem_append.1 h1 with h2 | h2
        · exact Or.inl h2
        · exact Or.inr ⟨l, List.mem_cons_self l rest, List.mem_singleton.1 h2⟩
    · exact Or.inr ⟨l', List.mem_cons_of_mem _ hl', rfl⟩

/-- A successful `mapLookup` pins down a map entry. -/
lemma mapLookup_mem {m : List (String × BoostInfo)} {k : String} {info : BoostInfo}
    (h : mapLookup m k = some info) : (k, info) ∈ m := by
  unfold mapLookup at h
  rcases hf : m.find? (fun p => p.1 = k) with _ | q
  · rw [hf] at h
    cases h
  · rw [hf] at h
    simp only [Option.map_some', Option.some.injEq] at h
    obtain ⟨q1, q2⟩ := q
    have hq := List.find?_some hf
    have hmem := List.mem_of_find?_eq_some hf
    simp only [decide_eq_true_eq] at hq
    subst hq
    cases h
    exact hmem

/-- A link surviving the hybrid query comes from the store and passes
the `WHERE` clause. -/
lemma mem_linksForStatutesHybrid {linkStore : List LinkRow}
    {statuteIds : List String} {l : LinkRow}
    (hl : l ∈ linksForStatutesHybrid linkStore statuteIds) :
    l ∈ linkStore ∧ hybridLinkFilter statuteIds l = true := by
  unfold linksForStatutesHybrid at hl
  have hm := (List.perm_insertionSort _ _).subset hl
  exact ⟨List.mem_of_mem_filter hm, List.of_mem_filter hm⟩

/-- The `WHERE` clause accepts exactly `verified = true` or `NULL`
rows (besides the statute-id restriction). -/
lemma hybridLinkFilter_verified {statuteIds : List String} {l : LinkRow}
    (h : hybridLinkFilter statuteIds l = true) :
    l.verified = some true ∨ l.verified = none := by
  simp only [hybridLinkFilter, Bool.and_eq_true, Bool.or_eq_true,
    decide_eq_true_eq] at h
  exact h.2

/-- A result of `boostExisting` is an input result, either untouched (no
map entry) or boosted by its map entry. -/
lemma mem_boostExisting {caseBoostMap : List (String × BoostInfo)}
    {results : List RetrievedDoc} {r : RetrievedDoc}
    (hr : r ∈ boostExisting caseBoostMap results) :
    ∃ r0 ∈ results,
      (mapLookup caseBoostMap r0.doc_id = none ∧ r = r0) ∨
      ∃ info, mapLookup caseBoostMap r0.doc_id = some info ∧
        r = { r0 with
                score := r0.score * info.boost_factor,
                interpretive_boost := some info.boost_factor,
                interprets_statute := some info.statute_id } := by
  unfold boostExisting at hr
  rcases List.mem_map.1 hr with ⟨r0, hr0, hfr⟩
  refine ⟨r0, hr0, ?_⟩
  rcases hl : mapLookup caseBoostMap r0.doc_id with _ | info
  · rw [hl] at hfr
    exact Or.inl ⟨rfl, hfr.symm⟩
  · rw [hl] at hfr
    exact Or.inr ⟨info, rfl, hfr.symm⟩

/-- An injected result comes from a map entry whose case was not among
the retrieved cases: it is marked interpretive and scored
`0.7 · avgTopTen(boosted) · boost_factor`. -/
lemma mem_injectMissingCases {caseBoostMap : List (String × BoostInfo)}
    {docStore : List DocRow} {boosted : List RetrievedDoc} {r : RetrievedDoc}
    (hr : r ∈ injectMissingCases caseBoostMap docStore boosted) :
    ∃ p ∈ caseBoostMap, r.doc_id = p.1 ∧ r.is_interpretive_case = true ∧
      r.interprets_statute = some p.2.statute_id ∧
      r.score = (7/10) * avgTopTen boosted * p.2.boost_factor := by
  simp only [injectMissingCases] at hr
  rcases List.mem_filterMap.1 hr with ⟨p, hp, hbody⟩
  refine ⟨p, hp, ?_⟩
  split at hbody
  · cases hbody
  · rcases hfind : (docStore.find? (fun d => d.id = p.1)) with _ | doc
    · rw [hfind] at hbody
      cases hbody
    · rw [hfind] at hbody
      have hid := List.find?_some hfind
      simp only [decide_eq_true_eq] at hid
      cases hbody
      exact ⟨hid, rfl, rfl, rfl⟩

/-- C2 counterexample: a stored link with `verified = NULL` slips through
the hybrid retriever's `verified = true OR verified IS NULL` filter and
produces an injected interpretive result, so "every boosted or injected
result corresponds to a stored link with `verified = true`" is false. -/
theorem boost_uses_unverified_link_counterexample :
    ¬ (∀ (linkStore : List LinkRow) (docStore : List DocRow)
        (results : List RetrievedDoc),
        ∀ r ∈ (applyInterpretationBoost linkStore docStore results).1,
          (r.interpretive_boost ≠ none ∨ r.is_interpretive_case = true) →
          ∃ l ∈ linkStore, l.case_id = r.doc_id ∧ l.verified = some true) := by
  intro h
  have hmem : ∃ r ∈ (applyInterpretationBoost
      [{ statute_id := "S", case_id := "C", interpretation_type := "CLARIFY",
         authority := "BINDING", boost_factor := 2, verified := none }]
      [{ id := "C", doc_type := "case" }]
      [{ doc_id := "S", doc_type := "statute", score := 1 }]).1,
      r.is_interpretive_case = true := by
    simp [applyInterpretationBoost, anchorStatuteIds, linksForStatutesHybrid,
      hybridLinkFilter, buildCaseBoostMap, caseBoostStep, mkBoostInfo, boostExisting, mapLookup,
      injectMissingCases, avgTopTen, List.insertionSort, List.orderedInsert]
  rcases hmem with ⟨r, hr, hcase⟩
  rcases h _ _ _ r hr (Or.inr hcase) with ⟨l, hl, -, hver⟩
  rw [List.mem_singleton] at hl
  subst hl
  cases hver

/-- C2 (amended): every result that the hybrid retriever boosts or
injects corresponds to a stored link that passes the retrieval filter
`verified = true OR verified IS NULL` — links with `verified` unset are
used exactly like verified ones (only
`InterpretationAwareRetriever._get_interpretation_links` restricts to
`verified = TRUE`). -/
theorem boosted_or_injected_from_filtered_link (linkStore : List LinkRow)
    (docStore : List DocRow) (results : List RetrievedDoc)
    (hclean : ∀ r ∈ results,
      r.interpretive_boost = none ∧ r.is_interpretive_case = false) :
    ∀ r ∈ (applyInterpretationBoost linkStore docStore results).1,
      (r.interpretive_boost ≠ none ∨ r.is_interpretive_case = true) →
      ∃ l ∈ linkStore,
        hybridLinkFilter (anchorStatuteIds results) l = true ∧
        (l.verified = some true ∨ l.verified = none) ∧
        l.case_id = r.doc_id := by
  intro r hr hflag
  have hfromClean : r ∈ results → False := by
    intro hmem
    rcases hclean r hmem with ⟨h1, h2⟩
    rcases hflag with hb | hb
    · exact hb h1
    · rw [h2] at hb
      cases hb
  simp only [applyInterpretationBoost] at hr
  by_cases h1 : (anchorStatuteIds results).isEmpty = true
  · rw [if_pos h1] at hr
    exact absurd hr hfromClean
  · rw [if_neg h1] at hr
    by_cases h2 : (linksForStatutesHybrid linkStore (anchorStatuteIds results)).isEmpty = true
    · rw [if_pos h2] at hr
      exact absurd hr hfromClean
    · rw [if_neg h2] at hr
      rcases List.mem_append.1 hr with hb | hi
      · rcases mem_boostExisting hb with ⟨r0, hr0, hcase⟩
        rcases hcase with ⟨hnone, rfl⟩ | ⟨info, hsome, rfl⟩
        · exact absurd hr0 hfromClean
        · have hpm := mapLookup_mem hsome
          rcases mem_buildCaseBoostMap_aux _ _ _ hpm with h0 | ⟨lnk, hlnk, heq⟩
          · cases h0
          · have hfl := mem_linksForStatutesHybrid hlnk
            refine ⟨lnk, hfl.1, hfl.2, hybridLinkFilter_verified hfl.2, ?_⟩
            have : r0.doc_id = lnk.case_id := congrArg Prod.fst heq
            exact this.symm
      · rcases mem_injectMissingCases hi with ⟨p, hp, hdoc, -, -, -⟩
        rcases mem_buildCaseBoostMap_aux _ _ _ hp with h0 | ⟨lnk, hlnk, rfl⟩
        · cases h0
        · have hfl := mem_linksForStatutesHybrid hlnk
          exact ⟨lnk, hfl.1, hfl.2, hybridLinkFilter_verified hfl.2, hdoc.symm⟩

/-- Witness for `boosted_or_injected_from_filtered_link`: a verified
link boosts a co-retrieved case. -/
theorem boosted_or_injected_from_filtered_link_witness :
    ∃ l ∈ [({ statute_id := "S", case_id := "C", interpretation_type := "APPLY",
              authority := "BINDING", boost_factor := 2,
              verified := some true } : LinkRow)],
      hybridLinkFilter (anchorStatuteIds
        [{ doc_id := "S", doc_type := "statute", score := 1 },
         { doc_id := "C", doc_type := "case", score := 4/5 }]) l = true ∧
      (l.verified = some true ∨ l.verified = none) ∧
      l.case_id = "C" :=
  boosted_or_injected_from_filtered_link
    [{ statute_id := "S", case_id := "C", interpretation_type := "APPLY",
       authority := "BINDING", boost_factor := 2, verified := some true }]
    []
    [{ doc_id := "S", doc_type := "statute", score := 1 },
     { doc_id := "C", doc_type := "case", score := 4/5 }]
    (by intro r hr
        simp only [List.mem_cons, List.not_mem_nil, or_false] at hr
        rcases hr with rfl | rfl <;> exact ⟨rfl, rfl⟩)
    { doc_id := "C", doc_type := "case", score := 4/5 * 2,
      interpretive_boost := some 2, interprets_statute := some "S" }
    (by simp [applyInterpretationBoost, anchorStatuteIds, linksForStatutesHybrid,
          hybridLinkFilter, buildCaseBoostMap, caseBoostStep, mkBoostInfo, boostExisting,
          mapLookup, injectMissingCases, avgTopTen, List.insertionSort,
          List.orderedInsert])
    (Or.inl (by simp))

/-- C4 counterexample: in the C4 scenario the value the claim predicts
for the injected case `C2` — `0.7 · mean(pre-boost top-10 fused scores)
· boost_factor = 0.7 · ((1 + 4/5)/2) · 2 = 63/50` — differs from the
score the code assigns, `91/50`: the code computes the mean *after*
boosting `C1` to `8/5`, giving `0.7 · ((1 + 8/5)/2) · 2`. -/
theorem injected_score_not_preBoost_mean_counterexample :
    ((7/10 : ℚ) * avgTopTen c4Results * 2 = 63/50) ∧
    (∃ r ∈ (applyInterpretationBoost c4Links c4Docs c4Results).1,
      r.doc_id = "C2" ∧ r.is_interpretive_case = true ∧ r.score = 91/50) ∧
    (91/50 : ℚ) ≠ 63/50 := by
  refine ⟨by norm_num [avgTopTen, c4Results], ?_, by norm_num⟩
  simp [applyInterpretationBoost, anchorStatuteIds, linksForStatutesHybrid,
    hybridLinkFilter, linkOrder, buildCaseBoostMap, caseBoostStep, mkBoostInfo,
    boostExisting, mapLookup, injectMissingCases, avgTopTen, c4Links, c4Docs,
    c4Results, List.insertionSort, List.orderedInsert]
  norm_num

/-- C4 (amended): every interpretive case injected by
`_apply_interpretation_boost` (a linked case not among the retrieved
`doc_type = "case"` results) is appended marked interpretive with score
`0.7 ·` (mean of the first ten *post-boost* scores of the fused list)
`· boost_factor` of its map entry. -/
theorem injected_case_score_formula (linkStore : List LinkRow)
    (docStore : List DocRow) (results : List RetrievedDoc)
    (hclean : ∀ r ∈ results, r.is_interpretive_case = false) :
    ∀ r ∈ (applyInterpretationBoost linkStore docStore results).1,
      r.is_interpretive_case = true →
      ∃ p ∈ buildCaseBoostMap
          (linksForStatutesHybrid linkStore (anchorStatuteIds results)),
        r.doc_id = p.1 ∧ r.interprets_statute = some p.2.statute_id ∧
        r.score = (7/10) *
          avgTopTen (boostExisting
            (buildCaseBoostMap
              (linksForStatutesHybrid linkStore (anchorStatuteIds results)))
            results) * p.2.boost_factor := by
  intro r hr hflag
  simp only [applyInterpretationBoost] at hr
  by_cases h1 : (anchorStatuteIds results).isEmpty = true
  · rw [if_pos h1] at hr
    rw [hclean r hr] at hflag
    cases hflag
  · rw [if_neg h1] at hr
    by_cases h2 : (linksForStatutesHybrid linkStore
        (anchorStatuteIds results)).isEmpty = true
    · rw [if_pos h2] at hr
      rw [hclean r hr] at hflag
      cases hflag
    · rw [if_neg h2] at hr
      rcases List.mem_append.1 hr with hb | hi
      · rcases mem_boostExisting hb with ⟨r0, hr0, hcase⟩
        rcases hcase with ⟨-, rfl⟩ | ⟨info, -, rfl⟩
        · rw [hclean r hr0] at hflag
          cases hflag
        · rw [show ({ r0 with
              score := r0.score * info.boost_factor,
              interpretive_boost := some info.boost_factor,
              interprets_statute :=
                some info.statute_id } : RetrievedDoc).is_interpretive_case =
              r0.is_interpretive_case from rfl, hclean r0 hr0] at hflag
          cases hflag
      · rcases mem_injectMissingCases hi with ⟨p, hp, hdoc, -, hstat, hscore⟩
        exact ⟨p, hp, hdoc, hstat, hscore⟩

/-- Witness for `injected_case_score_formula` in the C4 scenario: the
injected `C2` satisfies the post-boost score formula. -/
theorem injected_case_score_formula_witness :
    ∃ p ∈ buildCaseBoostMap
        (linksForStatutesHybrid c4Links (anchorStatuteIds c4Results)),
      ({ doc_id := "C2", doc_type := "case", score := 91/50,
         source := "interpretation_link", is_interpretive_case := true,
         interprets_statute := some "S",
         interpretation_type := some "BROAD" } : RetrievedDoc).doc_id = p.1 ∧
      ({ doc_id := "C2", doc_type := "case", score := 91/50,
         source := "interpretation_link", is_interpretive_case := true,
         interprets_statute := some "S",
         interpretation_type := some "BROAD" } : RetrievedDoc).interprets_statute =
        some p.2.statute_id ∧
      ({ doc_id := "C2", doc_type := "case", score := 91/50,
         source := "interpretation_link", is_interpretive_case := true,
         interprets_statute := some "S",
         interpretation_type := some "BROAD" } : RetrievedDoc).score = (7/10) *
        avgTopTen (boostExisting
          (buildCaseBoostMap
            (linksForStatutesHybrid c4Links (anchorStatuteIds c4Results)))
          c4Results) * p.2.boost_factor :=
  injected_case_score_formula c4Links c4Docs c4Results
    (by intro r hr
        simp only [c4Results, List.mem_cons, List.not_mem_nil, or_false] at hr
        rcases hr with rfl | rfl <;> rfl)
    { doc_id := "C2", doc_type := "case", score := 91/50,
      source := "interpretation_link", is_interpretive_case := true,
      interprets_statute := some "S", interpretation_type := some "BROAD" }
    (by simp [applyInterpretationBoost, anchorStatuteIds, linksForStatutesHybrid,
          hybridLinkFilter, linkOrder, buildCaseBoostMap, caseBoostStep,
          mkBoostInfo, boostExisting, mapLookup, injectMissingCases, avgTopTen,
          c4Links, c4Docs, c4Results, List.insertionSort, List.orderedInsert]
        norm_num)
    rfl

lemma distinctIdHash_symm : Symmetric distinctIdHash := by
  intro a b hab
  exact ⟨hab.1.symm, fun h hh => hab.2 h ⟨hh.2, hh.1⟩⟩

/-- Inserting into an empty table never conflicts. -/
lemma insertConflicts_nil (d : ParsedDoc) : insertConflicts [] d = false := by
  unfold insertConflicts
  rcases hh : d.hash with _ | h <;> rfl

/-- A flush is conflict-free exactly when no visible row shares the id
or the (present) hash. -/
lemma insertConflicts_eq_false_iff (rows : List ParsedDoc) (d : ParsedDoc) :
    insertConflicts rows d = false ↔
      (∀ c ∈ rows, ¬c.id = d.id) ∧
      (∀ h, d.hash = some h → ∀ c ∈ rows, ¬c.hash = some h) := by
  unfold insertConflicts
  rcases hh : d.hash with _ | hsh
  · simp [List.any_eq_false]
  · simp only [Bool.or_eq_false_iff, List.any_eq_false, decide_eq_true_eq,
      Option.some.injEq]
    constructor
    · rintro ⟨ha, hb⟩
      exact ⟨ha, fun h hh2 => by cases hh2; exact hb⟩
    · rintro ⟨ha, hb⟩
      exact ⟨ha, hb hsh rfl⟩

/-- A batch of pairwise fresh documents with no conflicts against the
visible rows is flushed in full. -/
lemma foldl_load_all_fresh :
    ∀ (l : List ParsedDoc) (st : LoaderState),
      (∀ d ∈ l, insertConflicts (st.committed ++ st.pending) d = false) →
      l.Pairwise distinctIdHash →
      l.foldl loadSingleDocument st =
        { st with pending := st.pending ++ l,
                  inserted := st.inserted ++ l.map (·.id) }
  | [], st, _, _ => by simp
  | d :: rest, st, hfresh, hpw => by
    have hd : insertConflicts (st.committed ++ st.pending) d = false :=
      hfresh d (List.mem_cons_self d rest)
    have hstep : loadSingleDocument st d =
        { st with pending := st.pending ++ [d],
                  inserted := st.inserted ++ [d.id] } := by
      unfold loadSingleDocument
      rw [hd]
      simp
    rw [List.foldl_cons, hstep,
      foldl_load_all_fresh rest _ ?_ (List.Pairwise.of_cons hpw)]
    · simp [List.append_assoc]
    · intro d' hd'
      have h1 := (insertConflicts_eq_false_iff _ d').1
        (hfresh d' (List.mem_cons_of_mem d hd'))
      have h2 : distinctIdHash d d' := (List.pairwise_cons.1 hpw).1 d' hd'
      refine (insertConflicts_eq_false_iff _ d').2 ⟨?_, ?_⟩
      · intro c hc
        rcases List.mem_append.1 hc with hcc | hcp
        · exact h1.1 c (List.mem_append.2 (Or.inl hcc))
        · rcases List.mem_append.1 hcp with hcp | hcd
          · exact h1.1 c (List.mem_append.2 (Or.inr hcp))
          · rw [List.mem_singleton.1 hcd]
            exact h2.1
      · intro h hh c hc
        rcases List.mem_append.1 hc with hcc | hcp
        · exact h1.2 h hh c (List.mem_append.2 (Or.inl hcc))
        · rcases List.mem_append.1 hcp with hcp | hcd
          · exact h1.2 h hh c (List.mem_append.2 (Or.inr hcp))
          · rw [List.mem_singleton.1 hcd]
            exact fun hdh => h2.2 h ⟨hdh, hh⟩

/-- When every document of the batch already has a committed row with
its id, every flush conflicts: nothing is inserted and the committed
rows are untouched. -/
lemma foldl_load_all_conflict :
    ∀ (l : List ParsedDoc) (st : LoaderState),
      st.pending = [] →
      (∀ d ∈ l, ∃ c ∈ st.committed, c.id = d.id) →
      (l.foldl loadSingleDocument st).committed = st.committed ∧
      (l.foldl loadSingleDocument st).pending = [] ∧
      (l.foldl loadSingleDocument st).inserted = st.inserted
  | [], st, hp, _ => ⟨rfl, hp, rfl⟩
  | d :: rest, st, hp, hin => by
    rcases hin d (List.mem_cons_self d rest) with ⟨c, hcmem, hid⟩
    have hc : insertConflicts (st.committed ++ st.pending) d = true := by
      unfold insertConflicts
      rw [Bool.or_eq_true]
      exact Or.inl (List.any_eq_true.2 ⟨c, List.mem_append.2 (Or.inl hcmem),
        decide_eq_true hid⟩)
    have hstep : loadSingleDocument st d =
        { st with pending := [], skipped := st.skipped ++ [d.id] } := by
      unfold loadSingleDocument
      rw [hc]
      simp
    rw [List.foldl_cons, hstep]
    exact foldl_load_all_conflict rest _ rfl
      (fun d' hd' => hin d' (List.mem_cons_of_mem d hd'))

/-- C6: a flush of a document whose content hash already exists in the
visible rows inserts nothing and records a skip (the disabled explicit
dedup is subsumed by the table's unique `hash` constraint), and
re-ingesting the same well-formed source a second time commits no new
documents and records no new inserts. -/
theorem ingest_hash_dedup_idempotent (st : LoaderState) (doc : ParsedDoc)
    (hsh : String) (hdoc : doc.hash = some hsh)
    (hex : ∃ d ∈ st.committed ++ st.pending, d.hash = some hsh)
    (docs : List ParsedDoc) (hpw : docs.Pairwise distinctIdHash) :
    (loadSingleDocument st doc =
      { st with pending := [], skipped := st.skipped ++ [doc.id] }) ∧
    (loadBatch (loadBatch initialLoaderState docs) docs).committed =
      (loadBatch initialLoaderState docs).committed ∧
    (loadBatch (loadBatch initialLoaderState docs) docs).inserted =
      (loadBatch initialLoaderState docs).inserted := by
  have hsorted := (List.perm_insertionSort
    (fun a b : ParsedDoc => a.level ≤ b.level) docs)
  refine ⟨?_, ?_⟩
  · have hc : insertConflicts (st.committed ++ st.pending) doc = true := by
      unfold insertConflicts
      rw [Bool.or_eq_true, hdoc]
      rcases hex with ⟨d, hd, hdh⟩
      exact Or.inr (List.any_eq_true.2 ⟨d, hd, decide_eq_true hdh⟩)
    unfold loadSingleDocument
    rw [hc]
    simp
  · have hpw' : (docs.insertionSort
        (fun a b : ParsedDoc => a.level ≤ b.level)).Pairwise distinctIdHash :=
      (hsorted.pairwise_iff (fun hab => distinctIdHash_symm hab)).2 hpw
    have hs1 : loadBatch initialLoaderState docs =
        { committed := docs.insertionSort (fun a b => a.level ≤ b.level),
          pending := [],
          inserted := (docs.insertionSort (fun a b => a.level ≤ b.level)).map (·.id),
          skipped := [], errors := [] } := by
      simp only [loadBatch]
      rw [foldl_load_all_fresh _ initialLoaderState
        (fun d _ => insertConflicts_nil d) hpw']
      simp [initialLoaderState]
    have hconf := foldl_load_all_conflict
      (docs.insertionSort (fun a b => a.level ≤ b.level))
      (loadBatch initialLoaderState docs)
      (by rw [hs1])
      (by intro d hd
          refine ⟨d, ?_, rfl⟩
          rw [hs1]
          exact hd)
    constructor
    · show ((docs.insertionSort _).foldl loadSingleDocument
          (loadBatch initialLoaderState docs)).committed ++
        ((docs.insertionSort _).foldl loadSingleDocument
          (loadBatch initialLoaderState docs)).pending =
        (loadBatch initialLoaderState docs).committed
      rw [hconf.1, hconf.2.1, List.append_nil]
    · show ((docs.insertionSort _).foldl loadSingleDocument
          (loadBatch initialLoaderState docs)).inserted =
        (loadBatch initialLoaderState docs).inserted
      exact hconf.2.2

/-- Witness for `ingest_hash_dedup_idempotent`: a committed row with
hash `h1` forces the duplicate flush to skip, on a two-document
source. -/
theorem ingest_hash_dedup_idempotent_witness :
    (loadSingleDocument
        { committed := [{ id := "root", hash := some "h1" }] }
        { id := "root2", hash := some "h1" } =
      { committed := [{ id := "root", hash := some "h1" }], pending := [],
        skipped := ["root2"] }) ∧
    (loadBatch (loadBatch initialLoaderState
        [{ id := "root", hash := some "h1" },
         { id := "sec", hash := some "h2", level := 1 }])
      [{ id := "root", hash := some "h1" },
       { id := "sec", hash := some "h2", level := 1 }]).committed =
      (loadBatch initialLoaderState
        [{ id := "root", hash := some "h1" },
         { id := "sec", hash := some "h2", level := 1 }]).committed ∧
    (loadBatch (loadBatch initialLoaderState
        [{ id := "root", hash := some "h1" },
         { id := "sec", hash := some "h2", level := 1 }])
      [{ id := "root", hash := some "h1" },
       { id := "sec", hash := some "h2", level := 1 }]).inserted =
      (loadBatch initialLoaderState
        [{ id := "root", hash := some "h1" },
         { id := "sec", hash := some "h2", level := 1 }]).inserted :=
  ingest_hash_dedup_idempotent
    { committed := [{ id := "root", hash := some "h1" }] }
    { id := "root2", hash := some "h1" } "h1" rfl
    ⟨{ id := "root", hash := some "h1" }, by simp, rfl⟩
    [{ id := "root", hash := some "h1" },
     { id := "sec", hash := some "h2", level := 1 }]
    (by simp [distinctIdHash])

end LegalRag
